import Mathlib

/-!
Verification development for the STM32 HASH driver
(`core/drivers/crypto/stm32/stm32_hash.c`).

The driver multiplexes one memory-mapped hash/HMAC accelerator across many
logical sessions: every `init`/`update`/`final` call takes the device mutex,
restores the session's saved register snapshot into the engine, operates,
and (except `final`) saves the engine registers back into the session.

Shallow embedding notes:
* Machine integers are `Nat`; register values are plain `Nat` words.
* The engine is modeled at the byte-transcript level: the internal
  accumulator (the class-dependent `HASH_CSR` window) is represented by the
  list of message phases already terminated by a DCAL trigger plus the bytes
  of the phase currently being absorbed.  The digest read from the `HASH_HR`
  registers is a fixed function of the configuration and the absorbed
  transcript, so the model's digest is that transcript together with the
  configuration word and the number of words read.
* This is the nominal-hardware semantics: `calloc` results are explicit
  boolean oracles, every word write is followed by the driver's busy-wait,
  after which the engine is idle and the FIFO-has-room flag (`DINIS`) reads
  set; the polling waits themselves are modeled separately over arbitrary
  flag traces.  The `csr` snapshot array is allocated (non-null) for every
  session produced by `stm32_hash_alloc`.
* C undefined behaviour is made explicit: the alignment-borrow
  `memcpy(..., buffer, align)` in `stm32_hash_update` reads past the caller
  buffer when `align > len` (and the following `len -= align` underflows
  `size_t`), so the model marks that branch with a dedicated `ub` flag
  instead of continuing.
-/

namespace Stm32Hash

set_option maxRecDepth 100000

/-! ## TEE result codes (from the OP-TEE API headers used by the driver) -/

def TEE_SUCCESS : Nat := 0
def TEE_ERROR_BAD_PARAMETERS : Nat := 0xFFFF0006
def TEE_ERROR_BAD_STATE : Nat := 0xFFFF0007
def TEE_ERROR_NOT_IMPLEMENTED : Nat := 0xFFFF0009
def TEE_ERROR_OUT_OF_MEMORY : Nat := 0xFFFF000C
def TEE_ERROR_BUSY : Nat := 0xFFFF000D

/-! ## Register bit constants (stm32_hash.c lines 22-136) -/

def HASH_CR_INIT : Nat := 4            -- BIT(2)
def HASH_CR_MODE : Nat := 64           -- BIT(6)
def HASH_CR_DATATYPE_BYTE : Nat := 32  -- 2 << 4
def HASH_CR_LKEY : Nat := 65536        -- BIT(16)
def HASH_SR_DINIS : Nat := 1           -- BIT(0)
def HASH_SR_DCIS : Nat := 2            -- BIT(1)
def HASH_SR_BUSY : Nat := 8            -- BIT(3)
def HASH_STR_DCAL : Nat := 256         -- BIT(8)

def CAPS_MD5 : Nat := 1
def CAPS_SHA1 : Nat := 2
def CAPS_SHA2_224 : Nat := 4
def CAPS_SHA2_256 : Nat := 8
def CAPS_SHA2_384 : Nat := 16
def CAPS_SHA2_512 : Nat := 32
def CAPS_SHA3 : Nat := 64

/-! ## Context-save register map constants (lines 105-121) -/

def SAVE_SMALL : Nat := 1
def SAVE_BIG : Nat := 2
def SAVE_SHA3 : Nat := 3

def SAVE_SMALL_NB_REG : Nat := 22
def SAVE_SMALL_FIRST_REG : Nat := 0
def SAVE_SMALL_HMAC_NB_REG : Nat := 16
def SAVE_SMALL_HMAC_FIRST_REG : Nat := 38
def SAVE_BIG_NB_REG : Nat := 91
def SAVE_BIG_FIRST_REG : Nat := 0
def SAVE_BIG_HMAC_NB_REG : Nat := 12
def SAVE_BIG_HMAC_FIRST_REG : Nat := 91
def SAVE_SHA3_NB_REG : Nat := 72
def SAVE_SHA3_FIRST_REG : Nat := 0
def SAVE_SHA3_HMAC_NB_REG : Nat := 72
def SAVE_SHA3_HMAC_FIRST_REG : Nat := 16

/-! ## Modes and algorithms (`enum stm32_hash_mode` / `enum stm32_hash_algo`,
declared in `stm32_hash.h`; the two modes are `STM32_HASH_MODE` and
`STM32_HMAC_MODE`, per the spec's `mode ∈ {Hash, Hmac}`). -/

inductive Mode where
  | hashMode : Mode
  | hmacMode : Mode
deriving DecidableEq, Repr

inductive Algo where
  | md5 | sha1 | sha224 | sha256 | sha384 | sha512
  | sha3_224 | sha3_256 | sha3_384 | sha3_512
deriving DecidableEq, Repr

/-! ## Algorithm catalog (the per-algorithm fields set by the `switch` in
`stm32_hash_alloc`, lines 457-541, and the capability bit each case tests). -/

def algoCaps : Algo → Nat
  | .md5 => CAPS_MD5
  | .sha1 => CAPS_SHA1
  | .sha224 => CAPS_SHA2_224
  | .sha256 => CAPS_SHA2_256
  | .sha384 => CAPS_SHA2_384
  | .sha512 => CAPS_SHA2_512
  | .sha3_224 => CAPS_SHA3
  | .sha3_256 => CAPS_SHA3
  | .sha3_384 => CAPS_SHA3
  | .sha3_512 => CAPS_SHA3

def algoDigestU32 : Algo → Nat
  | .md5 => 4
  | .sha1 => 5
  | .sha224 => 7
  | .sha256 => 8
  | .sha384 => 12
  | .sha512 => 16
  | .sha3_224 => 7
  | .sha3_256 => 8
  | .sha3_384 => 12
  | .sha3_512 => 16

def algoBlockSize : Algo → Nat
  | .md5 => 64
  | .sha1 => 64
  | .sha224 => 64
  | .sha256 => 64
  | .sha384 => 128
  | .sha512 => 128
  | .sha3_224 => 144
  | .sha3_256 => 136
  | .sha3_384 => 104
  | .sha3_512 => 72

def algoSaveMode : Algo → Nat
  | .md5 => SAVE_SMALL
  | .sha1 => SAVE_SMALL
  | .sha224 => SAVE_SMALL
  | .sha256 => SAVE_SMALL
  | .sha384 => SAVE_BIG
  | .sha512 => SAVE_BIG
  | .sha3_224 => SAVE_SHA3
  | .sha3_256 => SAVE_SHA3
  | .sha3_384 => SAVE_SHA3
  | .sha3_512 => SAVE_SHA3

/-! ## Hardware and session state -/

/-- Model of the accelerator's visible state.  `phases` are the byte strings
of message phases already terminated by a `DCAL` trigger (oldest first);
`cur` holds the bytes of full 32-bit words pushed through `HASH_DIN` since
the last `DCAL`.  The class-dependent `HASH_CSR` register window holds
exactly this accumulator state, which is what `save_context` /
`restore_context` copy. -/
structure Hw where
  imr : Nat
  str : Nat
  cr : Nat
  phases : List (List Nat)
  cur : List Nat
deriving DecidableEq, Repr

/-- `struct stm32_hash_context` (fields as used by stm32_hash.c; the header
`stm32_hash.h` declares them).  `remain` is the pending byte buffer
(`c->remain.buf` with length `c->remain.len`; bytes past the length are kept
zero by the driver), `queue_size` the current FIFO threshold, and
`imr`/`str`/`cr`/`csrPhases`/`csrCur` the saved register snapshot.  `caps`
is the device capability word reached through `c->dev->pdata.compat`. -/
structure Ctx where
  mode : Mode
  algo : Algo
  caps : Nat
  digest_u32 : Nat
  block_size : Nat
  save_mode : Nat
  queue_size : Nat
  remain : List Nat
  imr : Nat
  str : Nat
  cr : Nat
  csrPhases : List (List Nat)
  csrCur : List Nat
deriving DecidableEq, Repr

/-- `get_save_registers` (lines 223-253): the out-parameters start at 0 in
every caller and the HMAC pair is only assigned in HMAC mode.  Returns
`(nb_regs, first, hmac_nb_regs, hmac_first)`. -/
def get_save_registers (c : Ctx) : Nat × Nat × Nat × Nat :=
  let r : Nat × Nat × Nat × Nat := (0, 0, 0, 0)
  let r := if c.save_mode = SAVE_SMALL then
      (SAVE_SMALL_NB_REG, SAVE_SMALL_FIRST_REG,
       if c.mode = Mode.hmacMode then SAVE_SMALL_HMAC_NB_REG else r.2.2.1,
       if c.mode = Mode.hmacMode then SAVE_SMALL_HMAC_FIRST_REG else r.2.2.2)
    else r
  let r := if c.save_mode = SAVE_BIG then
      (SAVE_BIG_NB_REG, SAVE_BIG_FIRST_REG,
       if c.mode = Mode.hmacMode then SAVE_BIG_HMAC_NB_REG else r.2.2.1,
       if c.mode = Mode.hmacMode then SAVE_BIG_HMAC_FIRST_REG else r.2.2.2)
    else r
  if c.save_mode = SAVE_SHA3 then
      (SAVE_SHA3_NB_REG, SAVE_SHA3_FIRST_REG,
       if c.mode = Mode.hmacMode then SAVE_SHA3_HMAC_NB_REG else r.2.2.1,
       if c.mode = Mode.hmacMode then SAVE_SHA3_HMAC_FIRST_REG else r.2.2.2)
    else r

/-- `restore_context` (lines 293-321): writes IMR, STR, CR (with the
self-clearing INIT trigger bit set) and the whole class-dependent CSR
window from the session snapshot.  The input hardware state is entirely
overwritten; nominal run (snapshot storage allocated) always succeeds. -/
def restore_context (c : Ctx) : Hw :=
  { imr := c.imr
    str := c.str
    cr := c.cr ||| HASH_CR_INIT
    phases := c.csrPhases
    cur := c.csrCur }

/-- `save_context` (lines 255-291): after the busy-wait and the FIFO-empty
(`DINIS`) check, reads IMR, STR, CR and the class-dependent CSR window back
into the session snapshot.  Nominal run: busy-wait succeeds and `DINIS`
reads set. -/
def save_context (c : Ctx) (hw : Hw) : Ctx :=
  { c with
    imr := hw.imr
    str := hw.str
    cr := hw.cr
    csrPhases := hw.phases
    csrCur := hw.cur }

/-! ## FIFO / data-path primitives -/

/-- A 32-bit write to `HASH_DIN` pushes the word's four memory bytes into
the current phase (`hash_write_data`, lines 184-189; the trailing busy-wait
succeeds in the nominal model). -/
def din_write (hw : Hw) (bytes : List Nat) : Hw :=
  { hw with cur := hw.cur ++ bytes }

/-- `io_clrsetbits32(STR, _HASH_STR_NBLW_MASK, v)`: replace the low 5 bits
of `STR` with `v` (all call sites pass `v < 32`). -/
def setNBLW (hw : Hw) (v : Nat) : Hw :=
  { hw with str := hw.str / 32 * 32 + v % 32 }

/-- The number of valid bytes the NBLW field keeps in the last pushed word:
NBLW = 0 means all 32 bits are valid. -/
def nblwTrim (bytes : List Nat) (nblw : Nat) : List Nat :=
  if nblw % 32 = 0 then bytes else bytes.take (bytes.length - (4 - nblw / 8))

/-- Setting the self-clearing `DCAL` trigger bit in `STR`: the engine
terminates the current phase, honouring the NBLW field for the last word. -/
def dcal (hw : Hw) : Hw :=
  { hw with
    phases := hw.phases ++ [nblwTrim hw.cur (hw.str % 32)]
    cur := [] }

/-- Zero-pad a byte string to a whole number of 32-bit words (the driver
assembles the last partial word in a zeroed `tmp_buf` / a zero-padded
`remain.buf`). -/
def padToWords (bytes : List Nat) : List Nat :=
  bytes ++ List.replicate ((4 - bytes.length % 4) % 4) 0

/-- `write_key` (lines 191-221): program NBLW with `8 * (len mod 4)`, push
the key as zero-padded 32-bit words, then trigger `DCAL`. -/
def write_key (hw : Hw) (key : List Nat) : Hw :=
  let hw := setNBLW hw (8 * (key.length % 4))
  let hw := din_write hw (padToWords key)
  dcal hw

/-- The algorithm-select bits or-ed into `CR` by `hw_init` (lines 331-369),
including the SHA-256-on-MD5-capable-silicon encoding quirk. -/
def algoCrBits (algo : Algo) (caps : Nat) : Nat :=
  match algo with
  | .md5 => 128                              -- _HASH_CR_ALGO_MD5 = BIT(7)
  | .sha1 => 0
  | .sha224 => 2 * 2 ^ 17
  | .sha384 => 12 * 2 ^ 17
  | .sha512 => 15 * 2 ^ 17
  | .sha3_224 => 4 * 2 ^ 17
  | .sha3_256 => 5 * 2 ^ 17
  | .sha3_384 => 6 * 2 ^ 17
  | .sha3_512 => 7 * 2 ^ 17
  | .sha256 =>
    if caps &&& CAPS_MD5 ≠ 0 then 2 ^ 18 ||| 128 else 3 * 2 ^ 17

/-- `hw_init` (lines 323-385): program `CR` with INIT, byte datatype, the
algorithm bits and, in HMAC mode, the MODE bit plus LKEY when the key is
longer than a block; in HMAC mode the key is then written.  Writing `CR`
with the INIT bit resets the engine accumulator.  The model also takes
IMR and STR as reset here: the driver never reads them except to
snapshot, and the NBLW field is rewritten before every DCAL trigger, so
any residual value in the physical registers is functionally dead. -/
def hw_init (c : Ctx) (key : List Nat) (len : Nat) : Hw :=
  let reg := HASH_CR_INIT ||| HASH_CR_DATATYPE_BYTE ||| algoCrBits c.algo c.caps
  if c.mode = Mode.hmacMode then
    let reg := reg ||| HASH_CR_MODE |||
      (if len > c.block_size then HASH_CR_LKEY else 0)
    let hw : Hw := { imr := 0, str := 0, cr := reg, phases := [], cur := [] }
    write_key hw (key.take len)
  else
    { imr := 0, str := 0, cr := reg, phases := [], cur := [] }

/-! ## The streaming operations -/

/-- Result of `stm32_hash_init`: TEE result, the session, the hardware
state at exit, and whether the call took the device mutex. -/
structure InitOut where
  res : Nat
  c : Ctx
  hw : Hw
  locked : Bool
deriving DecidableEq, Repr

/-- `stm32_hash_init` (lines 746-775).  A null key is `none`; the stated
key length is the separate `len` argument, of which the first `len` bytes
of the key are read.  The key check precedes the mutex acquisition. -/
def stm32_hash_init (c : Ctx) (hw : Hw) (key : Option (List Nat))
    (len : Nat) : InitOut :=
  if (key = none ∨ len = 0) ∧ c.mode ≠ Mode.hashMode then
    ⟨TEE_ERROR_BAD_PARAMETERS, c, hw, false⟩
  else
    let c := { c with remain := [], queue_size := c.block_size + 4 }
    let hw := hw_init c (key.getD []) len
    let c := save_context c hw
    ⟨TEE_SUCCESS, c, hw, true⟩

/-- `ROUNDUP(x, 4)` for the pending-buffer alignment. -/
def ROUNDUP4 (x : Nat) : Nat := (x + 3) / 4 * 4

/-- Bytes borrowed from the incoming buffer to word-align the pending
buffer (`align`, lines 620-622). -/
def flushAlign (c : Ctx) : Nat := ROUNDUP4 c.remain.length - c.remain.length

/-- The word-streaming loop of `stm32_hash_update` (lines 649-660), in the
nominal model where the FIFO-has-room flag reads set at every test after
the preceding busy-wait: the loop pushes one 32-bit word per iteration
while `len >= c->queue_size`.  Structured with explicit fuel (one unit per
iteration; `data.length` units always suffice since each iteration consumes
four bytes). -/
def wordLoopF (queue : Nat) : Nat → List Nat → Hw → List Nat × Hw
  | 0, data, hw => (data, hw)
  | fuel + 1, data, hw =>
    if queue ≤ data.length ∧ 0 < queue then
      wordLoopF queue fuel (data.drop 4) (din_write hw (data.take 4))
    else (data, hw)

def wordLoop (queue : Nat) (data : List Nat) (hw : Hw) : List Nat × Hw :=
  wordLoopF queue data.length data hw

/-- Result of `stm32_hash_update`: `ub` marks the reachable C undefined
behaviour (alignment borrow reading past the caller's buffer, followed by
a `size_t` underflow of `len`); the model stops there. -/
structure UpdOut where
  res : Nat
  c : Ctx
  hw : Hw
  locked : Bool
  ub : Bool
deriving DecidableEq, Repr

/-- Body of `stm32_hash_update` past the null/empty check (lines 584-682).
`data` is the `len` bytes the caller passes.  Steps, as in the source:
restore the snapshot; if the pending bytes plus the new data do not reach
the threshold, append to the pending buffer and return without saving;
otherwise borrow up to three bytes to word-align the pending buffer
(undefined behaviour when the buffer holds fewer bytes than borrowed),
flush it, decide the next threshold (`block_size` iff the remaining length
reaches the current threshold), run the word loop, store the leftover bytes
as the new pending buffer and save the snapshot. -/
def stm32_hash_update_core (c : Ctx) (_hw0 : Hw) (data : List Nat) : UpdOut :=
  let hw := restore_context c
  if c.remain.length + data.length < c.queue_size then
    ⟨TEE_SUCCESS, { c with remain := c.remain ++ data }, hw, true, false⟩
  else
    let align := flushAlign c
    if c.remain.length ≠ 0 ∧ data.length < align then
      ⟨TEE_SUCCESS, c, hw, true, true⟩
    else
      let hw := if c.remain.length ≠ 0 then
          din_write hw (c.remain ++ data.take align) else hw
      let data2 := if c.remain.length ≠ 0 then data.drop align else data
      let nextq := if data2.length ≥ c.queue_size then c.block_size
        else c.queue_size
      let step := wordLoop c.queue_size data2 hw
      let c2 := { c with queue_size := nextq, remain := step.1 }
      let c3 := save_context c2 step.2
      ⟨TEE_SUCCESS, c3, step.2, true, false⟩

/-- `stm32_hash_update` (lines 573-683): `if (!len || !buffer) return
TEE_SUCCESS;` happens before the mutex is taken and before anything is
read through `buffer`. -/
def stm32_hash_update (c : Ctx) (hw : Hw) (buffer : Option (List Nat))
    (len : Nat) : UpdOut :=
  if len = 0 ∨ buffer = none then ⟨TEE_SUCCESS, c, hw, false, false⟩
  else stm32_hash_update_core c hw ((buffer.getD []).take len)

/-- Model of the `HASH_HR` digest read (`hash_get_digest`, lines 387-403):
the `digest_u32` result words are a fixed function of the configuration
word and the absorbed transcript, so the digest is represented by exactly
those.  At digest time the current phase is empty (`DCAL` just ran). -/
structure DigestModel where
  nwords : Nat
  cr : Nat
  phases : List (List Nat)
deriving DecidableEq, Repr

def hash_get_digest (c : Ctx) (hw : Hw) : DigestModel :=
  ⟨c.digest_u32, hw.cr, hw.phases⟩

structure FinOut where
  res : Nat
  c : Ctx
  hw : Hw
  locked : Bool
  digest : Option DigestModel
deriving DecidableEq, Repr

/-- `stm32_hash_final` (lines 685-744): HMAC key check (with
`TEE_ERROR_BAD_STATE`) before the mutex; restore; push the pending bytes as
zero-padded words and program NBLW with `8 * (remain.len mod 4)` (cleared
to 0 when the pending buffer is empty); trigger `DCAL`; in HMAC mode write
the key a second time; read the digest.  No snapshot is saved afterwards. -/
def stm32_hash_final (c : Ctx) (hw : Hw) (key : Option (List Nat))
    (len : Nat) : FinOut :=
  if (key = none ∨ len = 0) ∧ c.mode ≠ Mode.hashMode then
    ⟨TEE_ERROR_BAD_STATE, c, hw, false, none⟩
  else
    let hw := restore_context c
    let hw :=
      if c.remain.length ≠ 0 then
        setNBLW (din_write hw (padToWords c.remain)) (8 * (c.remain.length % 4))
      else setNBLW hw 0
    let c := { c with remain := [] }
    let hw := dcal hw
    let hw := if c.mode = Mode.hmacMode then
        write_key hw ((key.getD []).take len) else hw
    ⟨TEE_SUCCESS, c, hw, true, some (hash_get_digest c hw)⟩

/-! ## Allocation -/

/-- Result of `stm32_hash_alloc`: the TEE result, the session on success,
and which of the two heap blocks (pending buffer, snapshot array) the
context still owns when the call returns. -/
structure AllocOut where
  res : Nat
  ctx : Option Ctx
  ownsBuf : Bool
  ownsCsr : Bool
deriving DecidableEq, Repr

/-- The session a successful `stm32_hash_alloc` hands back: algorithm
identity plus digest size, block size and context-save class from the
per-algorithm `switch`; the pending buffer and snapshot are zeroed by
`calloc` and the remaining scalar fields are set by `stm32_hash_init`. -/
def allocCtx (caps : Nat) (mode : Mode) (algo : Algo) : Ctx :=
  { mode := mode, algo := algo, caps := caps
    digest_u32 := algoDigestU32 algo
    block_size := algoBlockSize algo
    save_mode := algoSaveMode algo
    queue_size := 0, remain := []
    imr := 0, str := 0, cr := 0, csrPhases := [], csrCur := [] }

/-- `stm32_hash_alloc` (lines 438-562).  `probed` models the global device
pointer being set; `okBuf` / `okCsr` are oracles for the two `calloc`
calls.  On the second allocation failing, the already-allocated pending
buffer is freed before returning `TEE_ERROR_OUT_OF_MEMORY`. -/
def stm32_hash_alloc (probed : Bool) (caps : Nat) (mode : Mode)
    (algo : Algo) (okBuf okCsr : Bool) : AllocOut :=
  if ¬probed then ⟨TEE_ERROR_NOT_IMPLEMENTED, none, false, false⟩
  else if caps &&& algoCaps algo = 0 then
    ⟨TEE_ERROR_NOT_IMPLEMENTED, none, false, false⟩
  else if ¬okBuf then ⟨TEE_ERROR_OUT_OF_MEMORY, none, false, false⟩
  else if ¬okCsr then ⟨TEE_ERROR_OUT_OF_MEMORY, none, false, false⟩
  else ⟨TEE_SUCCESS, some (allocCtx caps mode algo), true, true⟩

/-! ## The polling waits, over arbitrary flag traces -/

/-- The polling loop shared by `wait_end_busy` and `wait_digest_ready`
(lines 150-182): reads the flag at indices 0,1,2,…; a read showing the
flag settled (`unsettled i = false`) exits the `while`; after a read
showing it unsettled, `timeout_elapsed` is checked and breaks out of the
loop once the deadline (computed once at entry, here the index `deadline`
passed as fuel) has fired.  Returns the index of the read on which the
loop exited. -/
def pollLoop (unsettled : Nat → Bool) : Nat → Nat → Nat
  | 0, i => i
  | fuel + 1, i => if unsettled i then pollLoop unsettled fuel (i + 1) else i

/-- `wait_end_busy` (lines 150-165): after the loop, the BUSY flag is read
once more and `TEE_ERROR_BUSY` is returned iff that re-read still shows
BUSY. -/
def wait_end_busy (busy : Nat → Bool) (deadline : Nat) : Nat :=
  let e := pollLoop busy deadline 0
  if busy (e + 1) then TEE_ERROR_BUSY else TEE_SUCCESS

/-- `wait_digest_ready` (lines 167-182): same shape over the DCIS flag
(the loop runs while DCIS is clear, i.e. the digest is not ready). -/
def wait_digest_ready (ready : Nat → Bool) (deadline : Nat) : Nat :=
  let e := pollLoop (fun i => !ready i) deadline 0
  if !ready (e + 1) then TEE_ERROR_BUSY else TEE_SUCCESS

/-! ## The update word-loop condition, with the live DINIS reading -/

/-- The condition of the word-streaming `while` in `stm32_hash_update`
(lines 649-650), exactly as in the source:
`len >= c->queue_size || !(io_read32(SR) & _HASH_SR_DINIS)`. -/
def updateLoopCond (len queue_size : Nat) (dinis : Bool) : Bool :=
  decide (queue_size ≤ len) || !dinis

/-- The loop condition as the specification sentence words it: continue
`while len >= threshold OR the engine's FIFO-has-room status flag is set`.
Kept only to compare against `updateLoopCond`. -/
def updateLoopCondSpec (len queue_size : Nat) (dinis : Bool) : Bool :=
  decide (queue_size ≤ len) || dinis

/-! ## Interleaved sessions on the one device -/

/-- One driver call of a session. -/
inductive Call where
  | ini (key : Option (List Nat)) (len : Nat)
  | upd (buffer : Option (List Nat)) (len : Nat)
  | fin (key : Option (List Nat)) (len : Nat)

/-- What one call leaves behind: the session, the device registers, the
TEE result, and the digest when the call was a `final`. -/
structure StepOut where
  c : Ctx
  hw : Hw
  res : Nat
  dig : Option DigestModel

def stepCall (c : Ctx) (hw : Hw) : Call → StepOut
  | .ini key len =>
    let o := stm32_hash_init c hw key len
    ⟨o.c, o.hw, o.res, none⟩
  | .upd b len =>
    let o := stm32_hash_update c hw b len
    ⟨o.c, o.hw, o.res, none⟩
  | .fin key len =>
    let o := stm32_hash_final c hw key len
    ⟨o.c, o.hw, o.res, o.digest⟩

/-- A session running its calls alone on the device: returns the final
session state and, per call, the TEE result and digest (if any). -/
def runAlone (c : Ctx) (hw : Hw) : List Call → Ctx × List (Nat × Option DigestModel)
  | [] => (c, [])
  | k :: t =>
    let s := stepCall c hw k
    let r := runAlone s.c s.hw t
    (r.1, (s.res, s.dig) :: r.2)

/-- The subsequence of an interleaved trace belonging to one session
(`false` tags session A's calls, `true` session B's). -/
def sessionCalls (which : Bool) : List (Bool × Call) → List Call
  | [] => []
  | (w, k) :: t =>
    if w = which then k :: sessionCalls which t else sessionCalls which t

structure PairOut where
  cA : Ctx
  cB : Ctx
  outA : List (Nat × Option DigestModel)
  outB : List (Nat × Option DigestModel)

/-- Two sessions interleaved call-by-call on the one device: every call
runs under the device mutex, sees the hardware state the previous call (of
either session) left, restores its own snapshot at entry and saves it back
before release (inside the per-call operations). -/
def runPair (cA cB : Ctx) (hw : Hw) : List (Bool × Call) → PairOut
  | [] => ⟨cA, cB, [], []⟩
  | (false, k) :: t =>
    let s := stepCall cA hw k
    let r := runPair s.c cB s.hw t
    ⟨r.cA, r.cB, (s.res, s.dig) :: r.outA, r.outB⟩
  | (true, k) :: t =>
    let s := stepCall cB hw k
    let r := runPair cA s.c s.hw t
    ⟨r.cA, r.cB, r.outA, (s.res, s.dig) :: r.outB⟩

/-! ## Derived predicates and sample states used by concrete theorems -/

/-- The context-class register-count table exactly as the specification
(section 4.4) tabulates it: `(plain regs, plain offset, HMAC extra regs,
HMAC offset)`, with no extras outside HMAC mode.  Written from the spec's
words, to be compared against `get_save_registers`. -/
def specRegTable (cls : Nat) (m : Mode) : Nat × Nat × Nat × Nat :=
  if cls = SAVE_SMALL then
    (22, 0, if m = Mode.hmacMode then 16 else 0,
     if m = Mode.hmacMode then 38 else 0)
  else if cls = SAVE_BIG then
    (91, 0, if m = Mode.hmacMode then 12 else 0,
     if m = Mode.hmacMode then 91 else 0)
  else
    (72, 0, if m = Mode.hmacMode then 72 else 0,
     if m = Mode.hmacMode then 16 else 0)

/-- The at-rest shape of a session between calls: the threshold is either
`block_size` or `block_size + 4`, and the pending buffer holds at most
`block_size + 3` bytes (the pending buffer's allocated capacity is
`block_size + 4`, see the comment above the first `calloc` in
`stm32_hash_alloc`). -/
def ctxInv (c : Ctx) : Prop :=
  4 ≤ c.block_size ∧
  (c.queue_size = c.block_size ∨ c.queue_size = c.block_size + 4) ∧
  c.remain.length ≤ c.block_size + 3

instance (c : Ctx) : Decidable (ctxInv c) := by
  unfold ctxInv; infer_instance

def zeroBytes (n : Nat) : List Nat := List.replicate n 0

def hwZero : Hw := ⟨0, 0, 0, [], []⟩

def ctxFallback : Ctx :=
  ⟨Mode.hashMode, Algo.sha256, 0, 0, 0, 0, 0, [], 0, 0, 0, [], []⟩

/-- A freshly allocated SHA-256 hash-mode session on MP13-capability
hardware (`caps = 126`). -/
def sha256Ctx : Ctx :=
  match (stm32_hash_alloc true 126 Mode.hashMode Algo.sha256 true true).ctx with
  | some c => c
  | none => ctxFallback

/-- A freshly allocated SHA-256 HMAC-mode session. -/
def hmacCtx : Ctx :=
  match (stm32_hash_alloc true 126 Mode.hmacMode Algo.sha256 true true).ctx with
  | some c => c
  | none => ctxFallback

/-- The SHA-256 hash session right after `stm32_hash_init`. -/
def sess0 : Ctx := (stm32_hash_init sha256Ctx hwZero none 0).c

/-! # Theorems -/

/-! ## Generic lemmas about the word loop and the polling loop -/

/-- When the word loop has enough fuel (one unit per iteration always
suffices since each iteration consumes four bytes) and the threshold is at
least one word, the data it leaves behind is strictly below the
threshold. -/
theorem wordLoopF_length_lt (queue : Nat) (hq : 4 ≤ queue) :
    ∀ (fuel : Nat) (data : List Nat) (hw : Hw), data.length ≤ fuel →
      ((wordLoopF queue fuel data hw).1).length < queue := by
  intro fuel
  induction fuel with
  | zero =>
    intro data hw hlen
    show List.length data < queue
    omega
  | succ n ih =>
    intro data hw hlen
    simp only [wordLoopF]
    split
    · apply ih
      simp only [List.length_drop]
      omega
    · rename_i hcond
      rw [not_and_or] at hcond
      show List.length data < queue
      rcases hcond with h | h
      · omega
      · omega

theorem wordLoop_length_lt (queue : Nat) (data : List Nat) (hw : Hw)
    (hq : 4 ≤ queue) : ((wordLoop queue data hw).1).length < queue :=
  wordLoopF_length_lt queue hq data.length data hw le_rfl

/-- A word loop entered with less data than the threshold does nothing. -/
theorem wordLoop_nop (queue : Nat) (data : List Nat) (hw : Hw)
    (h : data.length < queue) : wordLoop queue data hw = (data, hw) := by
  unfold wordLoop
  cases hd : data.length with
  | zero => simp [wordLoopF]
  | succ n =>
    simp only [wordLoopF, hd]
    rw [if_neg]
    rw [hd] at h
    omega

/-- Every read strictly before the polling loop's exit read saw the flag
unsettled. -/
theorem pollLoop_before (u : Nat → Bool) :
    ∀ (fuel i j : Nat), i ≤ j → j < pollLoop u fuel i → u j = true := by
  intro fuel
  induction fuel with
  | zero =>
    intro i j hij hj
    simp only [pollLoop] at hj
    omega
  | succ n ih =>
    intro i j hij hj
    simp only [pollLoop] at hj
    by_cases hu : u i
    · rw [if_pos hu] at hj
      rcases Nat.eq_or_lt_of_le hij with h | h
      · exact h ▸ hu
      · exact ih (i + 1) j h hj
    · rw [if_neg hu] at hj
      omega

/-- The polling loop performs at most `fuel` unsettled reads past its
start. -/
theorem pollLoop_le (u : Nat → Bool) :
    ∀ (fuel i : Nat), pollLoop u fuel i ≤ i + fuel := by
  intro fuel
  induction fuel with
  | zero => intro i; simp [pollLoop]
  | succ n ih =>
    intro i
    simp only [pollLoop]
    split
    · calc pollLoop u n (i + 1) ≤ i + 1 + n := ih (i + 1)
        _ = i + (n + 1) := by omega
    · omega

/-- If the polling loop exits before its deadline fires, the exit read saw
the flag settled. -/
theorem pollLoop_early (u : Nat → Bool) :
    ∀ (fuel i : Nat), pollLoop u fuel i < i + fuel →
      u (pollLoop u fuel i) = false := by
  intro fuel
  induction fuel with
  | zero => intro i h; simp [pollLoop] at h
  | succ n ih =>
    intro i h
    simp only [pollLoop] at h ⊢
    by_cases hu : u i
    · rw [if_pos hu] at h ⊢
      exact ih (i + 1) (by omega)
    · rw [if_neg hu]
      simpa using hu

/-! ## Per-call projections used by the field-preservation arguments -/

/-- `stm32_hash_update` never changes the session's algorithm identity
fields (`mode`, `algo`, `save_mode`, `block_size`, `digest_u32`, `caps`):
it only touches the pending buffer, the threshold and the snapshot. -/
theorem update_preserves_identity (c : Ctx) (hw : Hw)
    (buffer : Option (List Nat)) (len : Nat) :
    (stm32_hash_update c hw buffer len).c.mode = c.mode ∧
    (stm32_hash_update c hw buffer len).c.algo = c.algo ∧
    (stm32_hash_update c hw buffer len).c.save_mode = c.save_mode ∧
    (stm32_hash_update c hw buffer len).c.block_size = c.block_size ∧
    (stm32_hash_update c hw buffer len).c.digest_u32 = c.digest_u32 := by
  simp only [stm32_hash_update, stm32_hash_update_core, save_context]
  split
  · exact ⟨rfl, rfl, rfl, rfl, rfl⟩
  · split
    · exact ⟨rfl, rfl, rfl, rfl, rfl⟩
    · split
      · exact ⟨rfl, rfl, rfl, rfl, rfl⟩
      · exact ⟨rfl, rfl, rfl, rfl, rfl⟩

/-- `stm32_hash_init` never changes the session's algorithm identity
fields. -/
theorem init_preserves_identity (c : Ctx) (hw : Hw)
    (key : Option (List Nat)) (len : Nat) :
    (stm32_hash_init c hw key len).c.mode = c.mode ∧
    (stm32_hash_init c hw key len).c.algo = c.algo ∧
    (stm32_hash_init c hw key len).c.save_mode = c.save_mode ∧
    (stm32_hash_init c hw key len).c.block_size = c.block_size ∧
    (stm32_hash_init c hw key len).c.digest_u32 = c.digest_u32 := by
  simp only [stm32_hash_init, save_context]
  split
  · exact ⟨rfl, rfl, rfl, rfl, rfl⟩
  · exact ⟨rfl, rfl, rfl, rfl, rfl⟩

/-- `stm32_hash_final` never changes the session's algorithm identity
fields. -/
theorem final_preserves_identity (c : Ctx) (hw : Hw)
    (key : Option (List Nat)) (len : Nat) :
    (stm32_hash_final c hw key len).c.mode = c.mode ∧
    (stm32_hash_final c hw key len).c.algo = c.algo ∧
    (stm32_hash_final c hw key len).c.save_mode = c.save_mode ∧
    (stm32_hash_final c hw key len).c.block_size = c.block_size ∧
    (stm32_hash_final c hw key len).c.digest_u32 = c.digest_u32 := by
  simp only [stm32_hash_final]
  split
  · exact ⟨rfl, rfl, rfl, rfl, rfl⟩
  · exact ⟨rfl, rfl, rfl, rfl, rfl⟩

/-! ## C9 -/

/-- C9: calling `stm32_hash_update` with data length 0 — and likewise with
a null data pointer regardless of the stated length — returns
`TEE_SUCCESS` immediately, without taking the device mutex, without any
hardware register access (the device state is returned untouched), and
with every field of the session context unchanged. -/
theorem c9_update_noop (c : Ctx) (hw : Hw) (buffer : Option (List Nat))
    (len : Nat) :
    stm32_hash_update c hw buffer 0 = ⟨TEE_SUCCESS, c, hw, false, false⟩ ∧
    stm32_hash_update c hw none len = ⟨TEE_SUCCESS, c, hw, false, false⟩ := by
  constructor <;> simp [stm32_hash_update]

/-! ## C10 -/

/-- C10: once `stm32_hash_alloc` has passed the probe and capability
checks, a failure of either allocation yields `TEE_ERROR_OUT_OF_MEMORY`
and leaves the context owning no allocation: in particular when the
pending buffer was allocated but the register-snapshot array was not, the
pending buffer is freed before the error returns. -/
theorem c10_alloc_cleanup (probed : Bool) (caps : Nat) (mode : Mode)
    (algo : Algo) (okBuf okCsr : Bool) (hp : probed = true)
    (hc : caps &&& algoCaps algo ≠ 0) :
    (okBuf = true → okCsr = false →
      stm32_hash_alloc probed caps mode algo okBuf okCsr =
        ⟨TEE_ERROR_OUT_OF_MEMORY, none, false, false⟩) ∧
    (okBuf = false →
      stm32_hash_alloc probed caps mode algo okBuf okCsr =
        ⟨TEE_ERROR_OUT_OF_MEMORY, none, false, false⟩) := by
  subst hp
  constructor
  · intro hb hcs
    subst hb; subst hcs
    simp [stm32_hash_alloc, hc]
  · intro hb
    subst hb
    simp [stm32_hash_alloc, hc]

/-- Witness for C10 at a concrete input: SHA-256 on MP13 capabilities with
the snapshot-array allocation failing. -/
theorem c10_witness :
    stm32_hash_alloc true 126 Mode.hashMode Algo.sha256 true false =
      ⟨TEE_ERROR_OUT_OF_MEMORY, none, false, false⟩ :=
  (c10_alloc_cleanup true 126 Mode.hashMode Algo.sha256 true false rfl
    (by decide)).1 rfl rfl

/-! ## C5 -/

/-- C5 counterexample: in HMAC mode, `stm32_hash_init` with a null key
returns `TEE_ERROR_BAD_PARAMETERS` (0xFFFF0006), not the BadState error
(`TEE_ERROR_BAD_STATE`, 0xFFFF0007) the claim names. -/
theorem c5_counterexample :
    (stm32_hash_init hmacCtx hwZero none 5).res = TEE_ERROR_BAD_PARAMETERS ∧
    TEE_ERROR_BAD_PARAMETERS ≠ TEE_ERROR_BAD_STATE := by decide

/-- C5 (amended): for every HMAC-mode session, `stm32_hash_init` with a
null key pointer or a zero key length fails with `TEE_ERROR_BAD_PARAMETERS`
before taking the device mutex, leaving the session and the hardware
untouched; with a non-null, non-empty key it proceeds (takes the device
and returns `TEE_SUCCESS`). -/
theorem c5_init_key_check (c : Ctx) (hw : Hw) (key : Option (List Nat))
    (len : Nat) (hm : c.mode = Mode.hmacMode) :
    ((key = none ∨ len = 0) →
      stm32_hash_init c hw key len =
        ⟨TEE_ERROR_BAD_PARAMETERS, c, hw, false⟩) ∧
    (key ≠ none → len ≠ 0 →
      (stm32_hash_init c hw key len).locked = true ∧
      (stm32_hash_init c hw key len).res = TEE_SUCCESS) := by
  constructor
  · intro hk
    rcases hk with h | h <;> subst h <;> simp [stm32_hash_init, hm]
  · intro hk hl
    cases key with
    | none => exact absurd rfl hk
    | some k =>
      rw [stm32_hash_init, if_neg]
      · exact ⟨rfl, rfl⟩
      · rintro ⟨h | h, -⟩
        · exact Option.noConfusion h
        · exact hl h

/-- Witness for C5 at concrete inputs: the HMAC SHA-256 session rejects a
null key and accepts a three-byte key. -/
theorem c5_witness :
    stm32_hash_init hmacCtx hwZero none 0 =
      ⟨TEE_ERROR_BAD_PARAMETERS, hmacCtx, hwZero, false⟩ ∧
    (stm32_hash_init hmacCtx hwZero (some [1, 2, 3]) 3).locked = true := by
  refine ⟨?_, ?_⟩
  · exact (c5_init_key_check hmacCtx hwZero none 0 (by decide)).1 (Or.inl rfl)
  · exact ((c5_init_key_check hmacCtx hwZero (some [1, 2, 3]) 3
      (by decide)).2 (by simp) (by decide)).1

/-! ## C4 -/

/-- C4 counterexample: at `len = 0`, threshold 68, FIFO-has-room flag set,
the source's loop condition (`len >= queue_size || !(SR & DINIS)`) is
false — the loop stops — while the claim's condition (`len >= threshold`
OR the flag IS SET) is true and would keep consuming words. -/
theorem c4_counterexample :
    updateLoopCond 0 68 true = false ∧
    updateLoopCondSpec 0 68 true = true := by decide

/-- C4 (amended): the word-streaming loop consumes 32-bit words exactly
while `len >= fifo_threshold` OR the FIFO-has-room flag (`DINIS`) is
CLEAR, and stops only when `len < fifo_threshold` AND the flag is set; in
the nominal model (flag set at every test, after each write's busy-wait)
the loop leaves data shorter than the threshold untouched. -/
theorem c4_loop_condition (len q : Nat) (d : Bool) (data : List Nat)
    (hw : Hw) (_hq : 0 < q) :
    (updateLoopCond len q d = true ↔ (q ≤ len ∨ d = false)) ∧
    (updateLoopCond len q d = false ↔ (len < q ∧ d = true)) ∧
    (data.length < q → wordLoop q data hw = (data, hw)) := by
  refine ⟨?_, ?_, fun h => wordLoop_nop q data hw h⟩
  · unfold updateLoopCond
    cases d <;> simp
  · unfold updateLoopCond
    cases d <;> simp

/-- Witness for C4 at concrete inputs: threshold 68, eight pending bytes,
flag set — the loop stops with the data untouched. -/
theorem c4_witness :
    wordLoop 68 (zeroBytes 8) hwZero = (zeroBytes 8, hwZero) :=
  (c4_loop_condition 8 68 true (zeroBytes 8) hwZero (by decide)).2.2
    (by decide)

/-! ## C8 -/

/-- C8 counterexample: a flag trace that reads settled on the very first
poll and unsettled on the post-loop re-read makes `wait_end_busy` return
`TEE_ERROR_BUSY`, although the flag was observed settled at a poll — the
claim's "settled at any poll implies success" is false; only the final
re-read decides. -/
theorem c8_counterexample :
    wait_end_busy (fun i => decide (i ≠ 0)) 5 = TEE_ERROR_BUSY ∧
    (fun i => decide (i ≠ 0)) 0 = false := by decide

/-- C8 (amended): both waits compute one deadline at entry (the fuel of
`pollLoop`), poll the flag — every read before the exit read saw it
unsettled, the loop exits early only on a settled read, and performs at
most `deadline` unsettled polls — then re-read the flag once after the
loop, and return success if and only if that single post-loop re-read
shows the flag settled (`TEE_ERROR_BUSY` otherwise). -/
theorem c8_wait_retest (busy ready : Nat → Bool) (d : Nat) :
    (∀ j, j < pollLoop busy d 0 → busy j = true) ∧
    pollLoop busy d 0 ≤ d ∧
    (pollLoop busy d 0 < d → busy (pollLoop busy d 0) = false) ∧
    (wait_end_busy busy d = TEE_SUCCESS ↔
      busy (pollLoop busy d 0 + 1) = false) ∧
    (wait_end_busy busy d = TEE_ERROR_BUSY ↔
      busy (pollLoop busy d 0 + 1) = true) ∧
    (∀ j, j < pollLoop (fun i => !ready i) d 0 → ready j = false) ∧
    (wait_digest_ready ready d = TEE_SUCCESS ↔
      ready (pollLoop (fun i => !ready i) d 0 + 1) = true) ∧
    (wait_digest_ready ready d = TEE_ERROR_BUSY ↔
      ready (pollLoop (fun i => !ready i) d 0 + 1) = false) := by
  refine ⟨?_, ?_, ?_, ?_, ?_, ?_, ?_, ?_⟩
  · intro j hj
    exact pollLoop_before busy d 0 j (Nat.zero_le j) hj
  · simpa using pollLoop_le busy d 0
  · intro h
    exact pollLoop_early busy d 0 (by simpa using h)
  · simp only [wait_end_busy]
    split <;> rename_i h <;> simp_all [TEE_SUCCESS, TEE_ERROR_BUSY]
  · simp only [wait_end_busy]
    split <;> rename_i h <;> simp_all [TEE_SUCCESS, TEE_ERROR_BUSY]
  · intro j hj
    have := pollLoop_before (fun i => !ready i) d 0 j (Nat.zero_le j) hj
    simpa using this
  · simp only [wait_digest_ready]
    split <;> rename_i h <;> simp_all [TEE_SUCCESS, TEE_ERROR_BUSY]
  · simp only [wait_digest_ready]
    split <;> rename_i h <;> simp_all [TEE_SUCCESS, TEE_ERROR_BUSY]

/-- Witness for C8 at concrete traces: an always-settled BUSY flag and an
always-ready DCIS flag make both waits succeed. -/
theorem c8_witness :
    wait_end_busy (fun _ => false) 3 = TEE_SUCCESS ∧
    wait_digest_ready (fun _ => true) 3 = TEE_SUCCESS := by
  constructor
  · exact (c8_wait_retest (fun _ => false) (fun _ => true) 3).2.2.2.1.mpr
      (by decide)
  · exact (c8_wait_retest (fun _ => false) (fun _ => true) 3).2.2.2.2.2.2.1.mpr
      (by decide)

/-! ## Inversion and branch lemmas for allocation and update -/

/-- A successful allocation hands back exactly `allocCtx caps mode algo`. -/
theorem alloc_ctx_eq (probed : Bool) (caps : Nat) (mode : Mode)
    (algo : Algo) (okBuf okCsr : Bool) (c : Ctx)
    (h : (stm32_hash_alloc probed caps mode algo okBuf okCsr).ctx = some c) :
    c = allocCtx caps mode algo := by
  unfold stm32_hash_alloc at h
  split at h
  · simp at h
  · split at h
    · simp at h
    · split at h
      · simp at h
      · split at h
        · simp at h
        · simpa [eq_comm] using h

/-- `get_save_registers` reads only the context-save class and the mode. -/
theorem get_save_registers_congr (c c' : Ctx) (h1 : c'.save_mode = c.save_mode)
    (h2 : c'.mode = c.mode) : get_save_registers c' = get_save_registers c := by
  unfold get_save_registers
  rw [h1, h2]

/-- The wrapper `stm32_hash_update` on a non-null, non-empty buffer is the
core update on those bytes. -/
theorem update_some_eq (c : Ctx) (hw : Hw) (data : List Nat) (hd : data ≠ []) :
    stm32_hash_update c hw (some data) data.length =
      stm32_hash_update_core c hw data := by
  unfold stm32_hash_update
  rw [if_neg (by simp [List.length_eq_zero, hd])]
  simp

/-- The three branches of the core update, as equations/facts:
the accumulate branch (threshold not reached), the undefined-behaviour
branch (alignment borrow larger than the incoming data), and, for the
flush branch, the facts the invariants need: no undefined behaviour, the
next threshold is `block_size` exactly when the data remaining after the
borrow reaches the current threshold, and the leftover pending bytes stay
below the current threshold. -/
theorem update_core_facts (c : Ctx) (hw : Hw) (data : List Nat) :
    (c.remain.length + data.length < c.queue_size →
      stm32_hash_update_core c hw data =
        ⟨TEE_SUCCESS, { c with remain := c.remain ++ data },
         restore_context c, true, false⟩) ∧
    (¬(c.remain.length + data.length < c.queue_size) →
      c.remain.length ≠ 0 → data.length < flushAlign c →
      stm32_hash_update_core c hw data =
        ⟨TEE_SUCCESS, c, restore_context c, true, true⟩) ∧
    (¬(c.remain.length + data.length < c.queue_size) →
      ¬(c.remain.length ≠ 0 ∧ data.length < flushAlign c) →
      (stm32_hash_update_core c hw data).ub = false ∧
      (stm32_hash_update_core c hw data).c.queue_size =
        (if data.length - flushAlign c ≥ c.queue_size then c.block_size
         else c.queue_size) ∧
      (4 ≤ c.queue_size →
        (stm32_hash_update_core c hw data).c.remain.length < c.queue_size)) := by
  refine ⟨?_, ?_, ?_⟩
  · intro h1
    simp only [stm32_hash_update_core]
    rw [if_pos h1]
  · intro h1 h2a h2b
    simp only [stm32_hash_update_core]
    rw [if_neg h1, if_pos ⟨h2a, h2b⟩]
  · intro h1 h2
    have hdroplen :
        (if c.remain.length ≠ 0 then data.drop (flushAlign c) else data).length
          = data.length - flushAlign c := by
      by_cases hr : c.remain.length ≠ 0
      · simp [hr, List.length_drop]
      · have hr0 : c.remain.length = 0 := by omega
        have ha0 : flushAlign c = 0 := by
          unfold flushAlign ROUNDUP4
          rw [hr0]
        simp [hr, ha0]
    simp only [stm32_hash_update_core]
    rw [if_neg h1, if_neg h2]
    refine ⟨rfl, ?_, ?_⟩
    · show (if _ ≥ c.queue_size then c.block_size else c.queue_size) = _
      rw [hdroplen]
    · intro hq4
      exact wordLoop_length_lt c.queue_size _ _ hq4

/-! ## C7 -/

/-- C7: a session allocated for `algo` in `mode` carries the context-save
class fixed by the algorithm's family, and `get_save_registers` yields
exactly the spec's table — Small: 22 plain registers at offset 0 plus, in
HMAC mode, 16 extra at offset 38; Big: 91 at 0 plus 12 at 91; Sha3: 72 at
0 plus 72 at 16 — and no streaming call (`init`, `update`, `final`) ever
changes the class, the mode, or hence these counts. -/
theorem c7_save_register_counts (probed : Bool) (caps : Nat) (mode : Mode)
    (algo : Algo) (okBuf okCsr : Bool) (c : Ctx)
    (h : (stm32_hash_alloc probed caps mode algo okBuf okCsr).ctx = some c) :
    (c.save_mode = algoSaveMode algo ∧ c.mode = mode) ∧
    get_save_registers c = specRegTable (algoSaveMode algo) mode ∧
    (∀ hw key len, get_save_registers (stm32_hash_init c hw key len).c =
      get_save_registers c) ∧
    (∀ hw buffer len, get_save_registers (stm32_hash_update c hw buffer len).c =
      get_save_registers c) ∧
    (∀ hw key len, get_save_registers (stm32_hash_final c hw key len).c =
      get_save_registers c) := by
  have hc := alloc_ctx_eq probed caps mode algo okBuf okCsr c h
  subst hc
  refine ⟨⟨rfl, rfl⟩, ?_, ?_, ?_, ?_⟩
  · cases algo <;> cases mode <;> rfl
  · intro hw key len
    exact get_save_registers_congr _ _
      (init_preserves_identity _ hw key len).2.2.1
      (init_preserves_identity _ hw key len).1
  · intro hw buffer len
    exact get_save_registers_congr _ _
      (update_preserves_identity _ hw buffer len).2.2.1
      (update_preserves_identity _ hw buffer len).1
  · intro hw key len
    exact get_save_registers_congr _ _
      (final_preserves_identity _ hw key len).2.2.1
      (final_preserves_identity _ hw key len).1

/-- Witness for C7 at a concrete input: an HMAC SHA-384 session (Big
class) shows counts (91, 0, 12, 91), preserved across an update call. -/
theorem c7_witness :
    get_save_registers
      ((stm32_hash_alloc true 126 Mode.hmacMode Algo.sha384 true
        true).ctx.getD ctxFallback) = (91, 0, 12, 91) := by
  have h := c7_save_register_counts true 126 Mode.hmacMode Algo.sha384 true
    true (allocCtx 126 Mode.hmacMode Algo.sha384) rfl
  exact h.2.1

/-! ## C3 -/

/-- C3 counterexample: SHA-256 session, `init` (threshold 68), `update` of
60 bytes (buffered, nothing written), then `update` of 8 bytes: the call
flushes the 60 pending bytes into the FIFO — the first flush of the
session's life — yet the threshold stays 68 = block_size + 4 instead of
dropping to block_size = 64 as the claim requires. -/
theorem c3_counterexample :
    (stm32_hash_update sess0 hwZero (some (zeroBytes 60)) 60).res
        = TEE_SUCCESS ∧
    (stm32_hash_update sess0 hwZero (some (zeroBytes 60)) 60).hw.cur.length
        = 0 ∧
    (let u1 := stm32_hash_update sess0 hwZero (some (zeroBytes 60)) 60
     let u2 := stm32_hash_update u1.c u1.hw (some (zeroBytes 8)) 8
     u2.res = TEE_SUCCESS ∧ u2.hw.cur.length = 60 ∧
     sess0.block_size = 64 ∧ u2.c.queue_size = 68) := by
  decide

/-- C3 (amended): after `init` the threshold is `block_size + 4`; an
`update` call (outside the undefined-behaviour branch) downgrades it to
`block_size` exactly when the data length remaining after the
pending-alignment borrow reaches the current threshold — not at the first
flush of pending bytes — and once the threshold equals `block_size` it
stays `block_size` for every subsequent update. -/
theorem c3_threshold_downgrade (c : Ctx) (hw : Hw) (key : Option (List Nat))
    (klen : Nat) (data : List Nat) (hd : data ≠ []) :
    ((stm32_hash_init c hw key klen).res = TEE_SUCCESS →
      (stm32_hash_init c hw key klen).c.queue_size = c.block_size + 4) ∧
    ((stm32_hash_update c hw (some data) data.length).ub = false →
      (stm32_hash_update c hw (some data) data.length).c.queue_size =
        if c.queue_size ≤ c.remain.length + data.length ∧
           c.queue_size ≤ data.length - flushAlign c
        then c.block_size else c.queue_size) ∧
    (c.queue_size = c.block_size →
      (stm32_hash_update c hw (some data) data.length).c.queue_size
        = c.block_size) := by
  refine ⟨?_, ?_, ?_⟩
  · intro hres
    by_cases hg : (key = none ∨ klen = 0) ∧ c.mode ≠ Mode.hashMode
    · rw [stm32_hash_init, if_pos hg] at hres
      exact absurd hres (by simp [TEE_ERROR_BAD_PARAMETERS, TEE_SUCCESS])
    · rw [stm32_hash_init, if_neg hg]
      rfl
  · intro hub
    rw [update_some_eq c hw data hd] at hub ⊢
    rcases update_core_facts c hw data with ⟨hAcc, hUB, hFlush⟩
    by_cases h1 : c.remain.length + data.length < c.queue_size
    · rw [hAcc h1]
      rw [if_neg (fun hand => absurd hand.1 (by omega))]
    · by_cases h2 : c.remain.length ≠ 0 ∧ data.length < flushAlign c
      · rw [hUB h1 h2.1 h2.2] at hub
        simp at hub
      · have hf := hFlush h1 h2
        rw [hf.2.1]
        have hA : c.queue_size ≤ c.remain.length + data.length := by omega
        by_cases hB : c.queue_size ≤ data.length - flushAlign c
        · rw [if_pos (by omega : data.length - flushAlign c ≥ c.queue_size),
            if_pos ⟨hA, hB⟩]
        · rw [if_neg (by omega), if_neg (fun hand => hB hand.2)]
  · intro hqbs
    rw [update_some_eq c hw data hd]
    rcases update_core_facts c hw data with ⟨hAcc, hUB, hFlush⟩
    by_cases h1 : c.remain.length + data.length < c.queue_size
    · rw [hAcc h1]
      exact hqbs
    · by_cases h2 : c.remain.length ≠ 0 ∧ data.length < flushAlign c
      · rw [hUB h1 h2.1 h2.2]
        exact hqbs
      · have hf := hFlush h1 h2
        rw [hf.2.1]
        by_cases hB : data.length - flushAlign c ≥ c.queue_size
        · rw [if_pos hB]
        · rw [if_neg hB]
          exact hqbs

/-- Witness for C3: the 129-byte update on the fresh SHA-256 session
(threshold 68) downgrades the threshold to 64 = block_size. -/
theorem c3_witness :
    (stm32_hash_update sess0 hwZero (some (zeroBytes 129))
      (zeroBytes 129).length).c.queue_size = 64 := by
  have h := (c3_threshold_downgrade sess0 hwZero none 0 (zeroBytes 129)
    (by decide)).2.1 (by decide)
  rw [h]
  decide

/-! ## C6 -/

/-- C6 counterexample: after `init` (threshold 68) a single successful
129-byte `update` on the SHA-256 session leaves 65 pending bytes with the
threshold downgraded to 64: at rest between calls the pending length is
NOT strictly below the threshold. -/
theorem c6_counterexample :
    (stm32_hash_update sess0 hwZero (some (zeroBytes 129)) 129).res
        = TEE_SUCCESS ∧
    (stm32_hash_update sess0 hwZero (some (zeroBytes 129)) 129).c.remain.length
        = 65 ∧
    (stm32_hash_update sess0 hwZero (some (zeroBytes 129)) 129).c.queue_size
        = 64 ∧
    ¬(65 < 64) := by
  decide

/-- C6 (amended): at rest between calls the pending length is bounded by
`block_size + 3` (one byte less than the buffer's allocated capacity
`block_size + 4`), equivalently it is below `fifo_threshold + 4`; `init`
empties the pending buffer, and `update` and `final` preserve this
at-rest shape (`ctxInv`).  The strict bound `pending < fifo_threshold`
claimed by the spec can fail, but only on the call that downgrades the
threshold (see the counterexample). -/
theorem c6_pending_bound (c : Ctx) (hw : Hw) (key : Option (List Nat))
    (klen : Nat) (data : List Nat) (hd : data ≠ []) :
    ((stm32_hash_init c hw key klen).res = TEE_SUCCESS →
      (stm32_hash_init c hw key klen).c.remain = []) ∧
    (ctxInv c → ctxInv (stm32_hash_update c hw (some data) data.length).c) ∧
    (ctxInv c → ctxInv (stm32_hash_final c hw key klen).c) ∧
    (ctxInv c → c.remain.length < c.queue_size + 4) := by
  refine ⟨?_, ?_, ?_, ?_⟩
  · intro hres
    by_cases hg : (key = none ∨ klen = 0) ∧ c.mode ≠ Mode.hashMode
    · rw [stm32_hash_init, if_pos hg] at hres
      exact absurd hres (by simp [TEE_ERROR_BAD_PARAMETERS, TEE_SUCCESS])
    · rw [stm32_hash_init, if_neg hg]
      rfl
  · intro hinv
    obtain ⟨hb4, hq, hr⟩ := hinv
    have hbq : (stm32_hash_update c hw (some data) data.length).c.block_size
        = c.block_size :=
      (update_preserves_identity c hw (some data) data.length).2.2.2.1
    rw [update_some_eq c hw data hd] at hbq ⊢
    rcases update_core_facts c hw data with ⟨hAcc, hUB, hFlush⟩
    by_cases h1 : c.remain.length + data.length < c.queue_size
    · rw [hAcc h1]
      refine ⟨hb4, hq, ?_⟩
      show (c.remain ++ data).length ≤ c.block_size + 3
      rw [List.length_append]
      omega
    · by_cases h2 : c.remain.length ≠ 0 ∧ data.length < flushAlign c
      · rw [hUB h1 h2.1 h2.2]
        exact ⟨hb4, hq, hr⟩
      · have hf := hFlush h1 h2
        have hq4 : 4 ≤ c.queue_size := by omega
        have hrem := hf.2.2 hq4
        refine ⟨by rw [hbq]; exact hb4, ?_, ?_⟩
        · rw [hbq, hf.2.1]
          by_cases hB : data.length - flushAlign c ≥ c.queue_size
          · rw [if_pos hB]
            exact Or.inl rfl
          · rw [if_neg hB]
            exact hq
        · rw [hbq]
          omega
  · intro hinv
    obtain ⟨hb4, hq, hr⟩ := hinv
    unfold stm32_hash_final
    split
    · exact ⟨hb4, hq, hr⟩
    · exact ⟨hb4, hq, by simp⟩
  · intro hinv
    obtain ⟨hb4, hq, hr⟩ := hinv
    omega

/-- Witness for C6: the at-rest shape holds after the 129-byte update on
the fresh SHA-256 session. -/
theorem c6_witness :
    ctxInv (stm32_hash_update sess0 hwZero (some (zeroBytes 129))
      (zeroBytes 129).length).c := by
  exact (c6_pending_bound sess0 hwZero none 0 (zeroBytes 129)
    (by decide)).2.1 (by decide)

/-! ## C1 -/

/-- The session outcome of a call (resulting context, TEE result, digest)
does not depend on the hardware state the call finds: `stm32_hash_init`
reprograms the engine and every other register-touching path begins with
`restore_context`, which overwrites IMR, STR, CR and the whole CSR window
from the session's own snapshot; the early-return paths touch no
hardware at all. -/
theorem stepCall_hw_indep (c : Ctx) (hw hw' : Hw) (k : Call) :
    (stepCall c hw k).c = (stepCall c hw' k).c ∧
    (stepCall c hw k).res = (stepCall c hw' k).res ∧
    (stepCall c hw k).dig = (stepCall c hw' k).dig := by
  cases k with
  | ini key len =>
    simp only [stepCall, stm32_hash_init]
    split <;> refine ⟨?_, ?_, ?_⟩ <;> trivial
  | upd b len =>
    simp only [stepCall, stm32_hash_update]
    split <;> refine ⟨?_, ?_, ?_⟩ <;> trivial
  | fin key len =>
    simp only [stepCall, stm32_hash_final]
    split <;> refine ⟨?_, ?_, ?_⟩ <;> trivial

/-- Interleaving two sessions call-by-call on the one device leaves each
session with exactly the state and per-call outputs of its solo run,
whatever hardware states the runs start from. -/
theorem runPair_isolated :
    ∀ (tr : List (Bool × Call)) (cA cB : Ctx) (hwP hwA hwB : Hw),
      (runPair cA cB hwP tr).cA = (runAlone cA hwA (sessionCalls false tr)).1 ∧
      (runPair cA cB hwP tr).outA
        = (runAlone cA hwA (sessionCalls false tr)).2 ∧
      (runPair cA cB hwP tr).cB = (runAlone cB hwB (sessionCalls true tr)).1 ∧
      (runPair cA cB hwP tr).outB
        = (runAlone cB hwB (sessionCalls true tr)).2 := by
  intro tr
  induction tr with
  | nil => intro cA cB hwP hwA hwB; exact ⟨rfl, rfl, rfl, rfl⟩
  | cons head t ih =>
    intro cA cB hwP hwA hwB
    obtain ⟨w, k⟩ := head
    cases w with
    | false =>
      obtain ⟨h1, h2, h3⟩ := stepCall_hw_indep cA hwP hwA k
      obtain ⟨i1, i2, i3, i4⟩ := ih (stepCall cA hwP k).c cB
        (stepCall cA hwP k).hw (stepCall cA hwA k).hw hwB
      simp only [runPair, runAlone, sessionCalls, if_pos]
      refine ⟨?_, ?_, i3, i4⟩
      · rw [← h1]
        exact i1
      · rw [← h1, ← h2, ← h3]
        exact congrArg _ i2
    | true =>
      obtain ⟨h1, h2, h3⟩ := stepCall_hw_indep cB hwP hwB k
      obtain ⟨i1, i2, i3, i4⟩ := ih cA (stepCall cB hwP k).c
        (stepCall cB hwP k).hw hwA (stepCall cB hwB k).hw
      simp only [runPair, runAlone, sessionCalls, if_pos]
      refine ⟨i1, i2, ?_, ?_⟩
      · rw [← h1]
        exact i3
      · rw [← h1, ← h2, ← h3]
        exact congrArg _ i4

/-- C1: for any two sessions A and B whose init/update/final calls are
interleaved call-by-call on the one device (each call running with
restore_context at entry and save_context before release, inside the
per-call operations), each session's results — every call's TEE result,
every final's digest, and the session's end state — equal those of the
session running alone from the same starting hardware state on the same
inputs: no call observes register state saved by the other session. -/
theorem c1_session_isolation (cA cB : Ctx) (hw : Hw)
    (tr : List (Bool × Call)) :
    (runPair cA cB hw tr).cA = (runAlone cA hw (sessionCalls false tr)).1 ∧
    (runPair cA cB hw tr).outA = (runAlone cA hw (sessionCalls false tr)).2 ∧
    (runPair cA cB hw tr).cB = (runAlone cB hw (sessionCalls true tr)).1 ∧
    (runPair cA cB hw tr).outB = (runAlone cB hw (sessionCalls true tr)).2 :=
  runPair_isolated tr cA cB hw hw hw

/-! ## C2 -/

/-- C2 (code bug): chunk-size invariance fails on the real code.  On a
SHA-256 session, `update` of 129 bytes succeeds and leaves 65 pending
bytes with the threshold downgraded to 64; the follow-up `update` of the
remaining 1 byte then computes an alignment borrow of `align = 3 > len =
1`, so `memcpy(remain.buf + 65, buffer, 3)` reads two bytes past the
caller's buffer and `len -= align` underflows `size_t` — the model's `ub`
marker — whereas the single unsplit `update` of all 130 bytes runs the
same prefix without any undefined behaviour.  The split and unsplit runs
therefore do not produce the same digest bytes, against the claim. -/
theorem c2_chunk_invariance_bug :
    (let u1 := stm32_hash_update sess0 hwZero (some (zeroBytes 129)) 129
     let u2 := stm32_hash_update u1.c u1.hw (some (zeroBytes 1)) 1
     let whole := stm32_hash_update sess0 hwZero (some (zeroBytes 130)) 130
     u1.res = TEE_SUCCESS ∧ u1.ub = false ∧
     u1.c.remain.length = 65 ∧ u1.c.queue_size = 64 ∧
     flushAlign u1.c = 3 ∧
     u2.ub = true ∧
     whole.res = TEE_SUCCESS ∧ whole.ub = false) := by
  decide

end Stm32Hash
